import Mathlib

/-
Shallow embedding of the analysis-and-recommendation pipeline of the
bigdata-ai-agent application (files analyzer.py and recommendation.py).
Python floats are modelled as exact rationals, optional dictionary fields
as Option, and Python truthiness is translated explicitly wherever the
source relies on it.
-/

namespace BigAgent

/-- A raw job record as returned by the fetchers: a dictionary with optional
fields. The field cluster_name models job.get with default empty string. -/
structure JobRecord where
  cluster_name : String
  id : Option String
  name : Option String
  elapsedTime : Option ℚ
  memorySeconds : Option ℚ
  vcoreSeconds : Option ℚ
deriving DecidableEq

/-- A custom SLA dictionary value: an optional category key, an optional
threshold_ms key, and the names of any further keys the mapping holds.
The Python dict is truthy exactly when at least one key is present. -/
structure SlaEntry where
  category : Option String
  threshold_ms : Option ℚ
  extraKeys : List String
deriving DecidableEq

/-- Python truthiness of the custom SLA dict: nonempty as a mapping. -/
def entryTruthy (e : SlaEntry) : Bool :=
  e.category.isSome || e.threshold_ms.isSome || !(e.extraKeys.isEmpty)

/-- The AnalysisResult dataclass of analyzer.py. -/
structure AnalysisResult where
  cluster_name : String
  app_id : String
  category : String
  avg_cpu : Option ℚ
  avg_memory : Option ℚ
  status : String
  notes : String
deriving DecidableEq

/-- Duration thresholds in milliseconds (JobAnalyzer class constants). -/
def HOURLY_THRESHOLD_MS : ℚ := 60 * 60 * 1000

def TWO_HOURS_THRESHOLD_MS : ℚ := 2 * 60 * 60 * 1000

def DAILY_THRESHOLD_MS : ℚ := 24 * 60 * 60 * 1000

def WEEKLY_THRESHOLD_MS : ℚ := 7 * 24 * 60 * 60 * 1000

def MONTHLY_THRESHOLD_MS : ℚ := 30 * 24 * 60 * 60 * 1000

/-- The elapsed-time threshold chain of analyse_jobs (the else-branch that
runs when no custom SLA entry applies). -/
def categoryOf (elapsed : ℚ) : String :=
  if elapsed ≤ HOURLY_THRESHOLD_MS then "hourly"
  else if elapsed ≤ TWO_HOURS_THRESHOLD_MS then "two_hours"
  else if elapsed ≤ DAILY_THRESHOLD_MS then "daily"
  else if elapsed ≤ WEEKLY_THRESHOLD_MS then "weekly"
  else if elapsed ≤ MONTHLY_THRESHOLD_MS then "monthly"
  else "monthly"

/-- Custom SLA lookup: membership test on the id first, then on the name,
where the name test additionally requires the name to be truthy. -/
def lookupCustom (sla : String → Option SlaEntry) (app_id : String)
    (app_name : Option String) : Option SlaEntry :=
  match sla app_id with
  | some e => some e
  | none =>
    match app_name with
    | some nm => if nm = "" then none else sla nm
    | none => none

/-- avg is not None and avg < b, as a Bool. -/
def ltOpt (x : Option ℚ) (b : ℚ) : Bool :=
  match x with
  | some v => decide (v < b)
  | none => false

/-- avg is not None and avg > b, as a Bool. -/
def gtOpt (x : Option ℚ) (b : ℚ) : Bool :=
  match x with
  | some v => decide (b < v)
  | none => false

/-- One utilisation rule of analyse_jobs: when it fires it overwrites the
status unconditionally and sets the note only if the notes are empty. -/
def applyRule (fires : Bool) (newStatus newNote : String)
    (sn : String × String) : String × String :=
  if fires then (newStatus, if sn.2 = "" then newNote else sn.2) else sn

/-- The four sequential utilisation rules of analyse_jobs, applied to the
initial status "normal" and the notes already set (possibly by a custom
SLA entry). Returns the final (status, notes) pair. -/
def evalStatus (avg_cpu avg_memory : Option ℚ) (notes : String) :
    String × String :=
  applyRule (gtOpt avg_memory 16384) "overutilised"
    "High memory usage; job may require additional memory"
    (applyRule (gtOpt avg_cpu 4) "overutilised"
      "High CPU usage; job may be starved or need more cores"
      (applyRule (ltOpt avg_memory 256) "underutilised"
        "Low memory usage; consider reducing executor memory"
        (applyRule (ltOpt avg_cpu (1/10)) "underutilised"
          "Low CPU usage; consider reducing executors or cores"
          ("normal", notes))))

/-- The per-record body of JobAnalyzer.analyse_jobs: none models the
continue statement that skips a record with a falsy id or a missing or
non-positive elapsed time. -/
def analyseJob (sla : String → Option SlaEntry) (job : JobRecord) :
    Option AnalysisResult :=
  match job.id, job.elapsedTime with
  | some app_id, some elapsed =>
    if app_id = "" ∨ elapsed ≤ 0 then none
    else
      let elapsed_sec := elapsed / 1000
      let avg_memory := Option.map (fun v => v / elapsed_sec) job.memorySeconds
      let avg_cpu := Option.map (fun v => v / elapsed_sec) job.vcoreSeconds
      let cn :=
        match lookupCustom sla app_id job.name with
        | some entry =>
          if entryTruthy entry then
            let c := Option.getD entry.category "custom"
            (c, "Custom SLA applied (category=" ++ c ++ ")")
          else (categoryOf elapsed, "")
        | none => (categoryOf elapsed, "")
      let sn := evalStatus avg_cpu avg_memory cn.2
      some { cluster_name := job.cluster_name, app_id := app_id,
             category := cn.1, avg_cpu := avg_cpu, avg_memory := avg_memory,
             status := sn.1, notes := sn.2 }
  | _, _ => none

/-- JobAnalyzer.analyse_jobs over a list of records. -/
def analyse_jobs (sla : String → Option SlaEntry) (jobs : List JobRecord) :
    List AnalysisResult :=
  jobs.filterMap (analyseJob sla)

/-- The retention test of analyse_jobs: a record is analysed exactly when
its id is present and truthy and its elapsed time is present and positive. -/
def retainedB (j : JobRecord) : Bool :=
  match j.id, j.elapsedTime with
  | some i, some e => !(decide (i = "")) && decide (0 < e)
  | _, _ => false

/-- The configuration object; only the openai_api_key field matters to the
recommendation engine, with Python truthiness of the empty string. -/
structure Config where
  openai_api_key : String
deriving DecidableEq

/-- The environment of one recommend call: whether the openai import
succeeds, and the outcome of the guarded block that performs the API call
and extracts the reply text (error models any exception raised there,
covering transport failures and malformed responses). -/
structure ModelEnv where
  importOk : Bool
  callResult : Except Unit String

/-- Floor of a rational, computed with flooring integer division. -/
def ratFloor (q : ℚ) : ℤ := Int.fdiv q.num q.den

/-- Python round with no digits argument: nearest integer, ties to even. -/
def pythonRound (q : ℚ) : ℤ :=
  let f := ratFloor q
  if q - f < 1/2 then f
  else if (1/2 : ℚ) < q - f then f + 1
  else if f % 2 = 0 then f else f + 1

/-- Python int() on a float: truncation toward zero. -/
def pyInt (q : ℚ) : ℤ := q.num / (q.den : ℤ)

/-- Value of one numeric token with integer part a, fractional digits
spelling the natural number f over k digits. -/
def tokenVal (a f k : ℕ) : ℚ := (a : ℚ) + (f : ℚ) / 10 ^ k

/-- Numeric value of a decimal digit character. -/
def digitVal (c : Char) : ℕ := c.toNat - 48

/-- Scanner state while extracting numeric tokens: outside a token, inside
the integer part, or inside the fractional part. -/
inductive NumScan where
  | idle : NumScan
  | intp : ℕ → NumScan
  | frac : ℕ → ℕ → ℕ → NumScan
deriving DecidableEq

/-- Left-to-right extraction of the maximal tokens matched by the pattern
digits, optional dot, digits; this is what re.findall returns in
_parse_recommendation, each token converted to its float value. -/
def scanNums : NumScan → List Char → List ℚ
  | NumScan.idle, [] => []
  | NumScan.intp a, [] => [tokenVal a 0 0]
  | NumScan.frac a f k, [] => [tokenVal a f k]
  | NumScan.idle, c :: cs =>
      if c.isDigit then scanNums (NumScan.intp (digitVal c)) cs
      else scanNums NumScan.idle cs
  | NumScan.intp a, c :: cs =>
      if c.isDigit then scanNums (NumScan.intp (10 * a + digitVal c)) cs
      else if c = '.' then scanNums (NumScan.frac a 0 0) cs
      else tokenVal a 0 0 :: scanNums NumScan.idle cs
  | NumScan.frac a f k, c :: cs =>
      if c.isDigit then scanNums (NumScan.frac a (10 * f + digitVal c) (k + 1)) cs
      else tokenVal a f k :: scanNums NumScan.idle cs

/-- All numeric tokens of a message, in order of appearance. -/
def findNumbers (message : String) : List ℚ := scanNums NumScan.idle message.data

/-- RecommendationEngine._heuristic_recommendation. The Python condition
tests truthiness of the two averages, so both must be present and nonzero
to take the formula branch; in every other case the fixed default is
returned. Result order is (executors, memory_mb, cores, notes). -/
def heuristic_recommendation (a : AnalysisResult) : ℤ × ℚ × ℤ × String :=
  match a.avg_cpu, a.avg_memory with
  | some c, some m =>
    if c ≠ 0 ∧ m ≠ 0 then
      (max 1 (pythonRound c), max 512 (m * (3/2)), 1,
       "Heuristic recommendation based on average usage")
    else (2, 1024, 1, "Default recommendation due to missing metrics")
  | _, _ => (2, 1024, 1, "Default recommendation due to missing metrics")

/-- Two digits with a leading zero where needed. -/
def pad2 (n : ℕ) : String := if n < 10 then "0" ++ toString n else toString n

/-- Python fixed-point formatting with two decimals, ties to even. -/
def formatFixed2 (q : ℚ) : String :=
  let n := pythonRound (q * 100)
  if n < 0 then
    "-" ++ toString ((-n).toNat / 100) ++ "." ++ pad2 ((-n).toNat % 100)
  else toString (n.toNat / 100) ++ "." ++ pad2 (n.toNat % 100)

/-- RecommendationEngine._build_prompt. Formatting a missing average with
the two-decimal float format raises a TypeError in Python, modelled as the
error case; the source calls this outside its try block. -/
def build_prompt (a : AnalysisResult) : Except Unit (List (String × String)) :=
  match a.avg_cpu, a.avg_memory with
  | some c, some m =>
    Except.ok
      [("system", "You are an expert Spark performance engineer."),
       ("user",
        "We have a Spark job with ID " ++ a.app_id ++ ". It is categorised as "
          ++ a.category ++ " based on its SLA. The average CPU usage is "
          ++ formatFixed2 c ++ " vcores and average memory usage is "
          ++ formatFixed2 m ++ " MB if available. The utilisation status is "
          ++ a.status
          ++ ". Based on these metrics, suggest the number of executors, cores per executor, and memory per executor (in MB) that would be appropriate. Keep the response succinct and in the format: \x27executors=<num>, cores=<num>, memory=<num>MB\x27 followed by a brief note explaining the reasoning.")]
  | _, _ => Except.error ()

/-- RecommendationEngine._parse_recommendation: the first three numeric
tokens become executors, cores and memory, the whole message becomes the
note, and the result is ordered (executors, memory_mb, cores, notes);
fewer than three tokens falls back to the heuristic. -/
def parse_recommendation (message : String) (a : AnalysisResult) :
    ℤ × ℚ × ℤ × String :=
  match findNumbers message with
  | e :: c :: m :: _ => (pyInt e, m, pyInt c, message)
  | _ => heuristic_recommendation a

/-- RecommendationEngine.recommend: heuristic when the key is falsy or
the import fails; otherwise the prompt is built outside the try block (a
failure there propagates), and any exception in the call-and-parse block
falls back to the heuristic. -/
def recommend (cfg : Config) (env : ModelEnv) (a : AnalysisResult) :
    Except Unit (ℤ × ℚ × ℤ × String) :=
  if cfg.openai_api_key = "" then Except.ok (heuristic_recommendation a)
  else if env.importOk = false then Except.ok (heuristic_recommendation a)
  else
    match build_prompt a with
    | Except.error e => Except.error e
    | Except.ok _ =>
      match env.callResult with
      | Except.error _ => Except.ok (heuristic_recommendation a)
      | Except.ok message => Except.ok (parse_recommendation message a)

/-! Shared fixtures and helper lemmas. -/

/-- An empty custom SLA table. -/
def slaNone : String → Option SlaEntry := fun _ => none

/-- A configuration with a truthy API key. -/
def cfgKey : Config := ⟨"sk-test"⟩

/-- An analysis result with both averages present and nonzero. -/
def arBoth : AnalysisResult :=
  ⟨"c1", "app-1", "hourly", some 2, some 600, "normal", ""⟩

lemma applyRule_notes_eq (f : Bool) (s nn : String) (sn : String × String)
    (n0 : String) (h0 : sn.2 = n0) (h : n0 ≠ "") :
    (applyRule f s nn sn).2 = n0 := by
  unfold applyRule
  split
  · simp [h0, h]
  · exact h0

lemma evalStatus_notes_ne (ac am : Option ℚ) (n0 : String) (h : n0 ≠ "") :
    (evalStatus ac am n0).2 = n0 := by
  unfold evalStatus
  exact applyRule_notes_eq _ _ _ _ _
    (applyRule_notes_eq _ _ _ _ _
      (applyRule_notes_eq _ _ _ _ _
        (applyRule_notes_eq _ _ _ _ _ rfl h) h) h) h

/-- A model reply whose first three numeric tokens are all zero. -/
def envZeros : ModelEnv := ⟨true, Except.ok "executors=0, cores=0, memory=0MB"⟩

/-- C1 counterexample: with a configured key, a successful model call and
the reply "executors=0, cores=0, memory=0MB", recommend returns executor
count 0, memory 0 MB and 0 cores, so the produced recommendation violates
executor count >= 1 (and memory >= 512 and cores >= 1). -/
theorem C1_counterexample :
    recommend cfgKey envZeros arBoth =
      Except.ok (0, 0, 0, "executors=0, cores=0, memory=0MB") ∧
    ¬ (1 ≤ (0 : ℤ)) := by
  refine ⟨?_, by decide⟩
  have ht : tokenVal 0 0 0 = 0 := by norm_num [tokenVal]
  have hnum : findNumbers "executors=0, cores=0, memory=0MB" = [0, 0, 0] := by
    have h : findNumbers "executors=0, cores=0, memory=0MB" =
        [tokenVal 0 0 0, tokenVal 0 0 0, tokenVal 0 0 0] := rfl
    rw [h, ht]
  have hp : parse_recommendation "executors=0, cores=0, memory=0MB" arBoth =
      (0, 0, 0, "executors=0, cores=0, memory=0MB") := by
    unfold parse_recommendation
    rw [hnum]
    rfl
  have hrec : recommend cfgKey envZeros arBoth =
      Except.ok (parse_recommendation "executors=0, cores=0, memory=0MB" arBoth) := rfl
  rw [hrec, hp]

/-- C1 (amended): every recommendation produced by the heuristic path —
the formula branch as well as the missing-metrics default — satisfies
executor count >= 1, memory per executor >= 512 MB and cores per
executor >= 1; the model-assisted parse returns the three extracted
numbers without clamping and can fall below these bounds. -/
theorem C1_heuristic_bounds (a : AnalysisResult) :
    1 ≤ (heuristic_recommendation a).1 ∧
    512 ≤ (heuristic_recommendation a).2.1 ∧
    1 ≤ (heuristic_recommendation a).2.2.1 := by
  rcases a with ⟨cn, ai, cat, ac, am, st, nt⟩
  cases ac with
  | none =>
    exact ⟨by norm_num [heuristic_recommendation],
      by norm_num [heuristic_recommendation], by norm_num [heuristic_recommendation]⟩
  | some c =>
    cases am with
    | none =>
      exact ⟨by norm_num [heuristic_recommendation],
        by norm_num [heuristic_recommendation], by norm_num [heuristic_recommendation]⟩
    | some m =>
      simp only [heuristic_recommendation]
      split_ifs with h
      · exact ⟨le_max_left _ _, le_max_left _ _, le_refl _⟩
      · exact ⟨by norm_num, by norm_num, by norm_num⟩

/-- An analysis result whose average CPU is absent. -/
def arNoCpu : AnalysisResult :=
  ⟨"c1", "app-2", "two_hours", none, some 100, "normal", ""⟩

/-- A working model environment: import succeeds and the call returns a
well-formed reply. -/
def envFine : ModelEnv := ⟨true, Except.ok "executors=4, cores=2, memory=4096MB"⟩

/-- C2: with an API key configured and the openai import available,
recommend on an analysis result whose avg_cpu is absent raises (the
two-decimal format applied to the missing value in _build_prompt, which
runs outside the try block), instead of rendering "unavailable" and
returning a recommendation tuple. -/
theorem C2_recommend_raises :
    recommend cfgKey envFine arNoCpu = Except.error () := by rfl

/-- An analysis result with avg_cpu present but equal to zero. -/
def arZeroCpu : AnalysisResult :=
  ⟨"c1", "app-3", "hourly", some 0, some 1000, "normal", ""⟩

/-- C3 counterexample: for an analysis result with avg_cpu present and
equal to 0 and avg_memory present and equal to 1000, the heuristic path
returns the fixed default (2, 1024, 1) although both averages are known,
while the claimed formulas give executors max(1, round(0)) = 1 and
memory max(512, 1000 * 1.5) = 1500. -/
theorem C3_counterexample :
    arZeroCpu.avg_cpu = some 0 ∧ arZeroCpu.avg_memory = some 1000 ∧
    heuristic_recommendation arZeroCpu =
      (2, 1024, 1, "Default recommendation due to missing metrics") ∧
    heuristic_recommendation arZeroCpu ≠
      (max 1 (pythonRound 0), max 512 ((1000 : ℚ) * (3/2)), 1,
       "Heuristic recommendation based on average usage") := by
  refine ⟨rfl, rfl, rfl, ?_⟩
  intro h
  rw [show heuristic_recommendation arZeroCpu =
    (2, 1024, 1, "Default recommendation due to missing metrics") from rfl] at h
  simp [Prod.ext_iff] at h

/-- C3 (amended): the heuristic path is a pure function of the two
averages; whenever both are present and nonzero it returns executors =
max(1, round(avg_cpu)), memory = max(512, avg_memory * 1.5) and cores = 1,
and whenever either average is absent or zero it returns exactly the
default (2, 1024.0, 1) with the missing-metrics note. -/
theorem C3_heuristic_formula (a : AnalysisResult) :
    (∀ c m : ℚ, a.avg_cpu = some c → a.avg_memory = some m → c ≠ 0 → m ≠ 0 →
      heuristic_recommendation a =
        (max 1 (pythonRound c), max 512 (m * (3/2)), 1,
         "Heuristic recommendation based on average usage")) ∧
    (a.avg_cpu = none ∨ a.avg_cpu = some 0 ∨
        a.avg_memory = none ∨ a.avg_memory = some 0 →
      heuristic_recommendation a =
        (2, 1024, 1, "Default recommendation due to missing metrics")) := by
  constructor
  · rintro c m hc hm hc0 hm0
    simp [heuristic_recommendation, hc, hm, hc0, hm0]
  · rintro (h | h | h | h) <;> cases hc : a.avg_cpu <;> cases hm : a.avg_memory <;>
      simp_all [heuristic_recommendation]

/-- C3 witness: at avg_cpu = 2 and avg_memory = 600 the formula branch
applies and yields (2, 900, 1). -/
theorem C3_witness :
    heuristic_recommendation arBoth =
      (2, 900, 1, "Heuristic recommendation based on average usage") := by
  have h := (C3_heuristic_formula arBoth).1 2 600 rfl rfl (by norm_num) (by norm_num)
  have e1 : pythonRound 2 = 2 := by
    unfold pythonRound
    rw [show ratFloor 2 = 2 from rfl]
    norm_num
  have e2 : max (512 : ℚ) (600 * (3/2)) = 900 := by norm_num
  rw [e1, e2] at h
  simpa using h

/-- C4: for a retained job with no matching custom-SLA entry the assigned
category is a total function of the elapsed duration alone, with ascending
inclusive upper bounds: <= 3600000 hourly, <= 7200000 two_hours,
<= 86400000 daily, <= 604800000 weekly, and everything above 604800000 —
including everything above 2592000000 — monthly, so each boundary value
falls in the lower tier and boundary + 1 in the next. -/
theorem C4_category_tiers (sla : String → Option SlaEntry) (job : JobRecord)
    (i : String) (e : ℚ) (r : AnalysisResult)
    (hid : job.id = some i) (he : job.elapsedTime = some e)
    (hnc : lookupCustom sla i job.name = none)
    (hr : analyseJob sla job = some r) :
    r.category = categoryOf e ∧
    (e ≤ 3600000 → categoryOf e = "hourly") ∧
    (3600000 < e → e ≤ 7200000 → categoryOf e = "two_hours") ∧
    (7200000 < e → e ≤ 86400000 → categoryOf e = "daily") ∧
    (86400000 < e → e ≤ 604800000 → categoryOf e = "weekly") ∧
    (604800000 < e → categoryOf e = "monthly") := by
  have hH : HOURLY_THRESHOLD_MS = 3600000 := by norm_num [HOURLY_THRESHOLD_MS]
  have hT : TWO_HOURS_THRESHOLD_MS = 7200000 := by
    norm_num [TWO_HOURS_THRESHOLD_MS]
  have hD : DAILY_THRESHOLD_MS = 86400000 := by norm_num [DAILY_THRESHOLD_MS]
  have hW : WEEKLY_THRESHOLD_MS = 604800000 := by norm_num [WEEKLY_THRESHOLD_MS]
  have hM : MONTHLY_THRESHOLD_MS = 2592000000 := by
    norm_num [MONTHLY_THRESHOLD_MS]
  have hcat : ∀ d : ℚ, categoryOf d =
      if d ≤ 3600000 then "hourly"
      else if d ≤ 7200000 then "two_hours"
      else if d ≤ 86400000 then "daily"
      else if d ≤ 604800000 then "weekly"
      else if d ≤ 2592000000 then "monthly"
      else "monthly" := by
    intro d
    rw [categoryOf, hH, hT, hD, hW, hM]
  refine ⟨?_, ?_, ?_, ?_, ?_, ?_⟩
  · rcases job with ⟨cn, jid, jn, jel, jmem, jvc⟩
    simp only at hid he
    subst hid he
    simp only [analyseJob] at hr
    simp only at hnc
    rw [hnc] at hr
    split at hr
    · exact absurd hr (by simp)
    · rw [← Option.some_inj.mp hr]
  · intro h1
    rw [hcat, if_pos h1]
  · intro h1 h2
    rw [hcat, if_neg (by linarith), if_pos h2]
  · intro h1 h2
    rw [hcat, if_neg (by linarith), if_neg (by linarith), if_pos h2]
  · intro h1 h2
    rw [hcat, if_neg (by linarith), if_neg (by linarith), if_neg (by linarith),
      if_pos h2]
  · intro h1
    rw [hcat, if_neg (by linarith), if_neg (by linarith), if_neg (by linarith),
      if_neg (by linarith)]
    split <;> rfl

/-- A job with elapsed time exactly at the two-hours boundary. -/
def jobC4 : JobRecord := ⟨"c", some "a", none, some 7200000, none, none⟩

/-- The analysis result computed for jobC4. -/
def resC4 : AnalysisResult := ⟨"c", "a", "two_hours", none, none, "normal", ""⟩

lemma analyseJob_jobC4 : analyseJob slaNone jobC4 = some resC4 := by
  have hc : categoryOf 7200000 = "two_hours" := by
    unfold categoryOf
    rw [if_neg (by norm_num [HOURLY_THRESHOLD_MS]),
      if_pos (by norm_num [TWO_HOURS_THRESHOLD_MS])]
  simp only [analyseJob, jobC4, slaNone, lookupCustom]
  rw [if_neg (by push_neg; exact ⟨by decide, by norm_num⟩)]
  simp only [Option.map, hc]
  rfl

/-- C4 witness: the boundary value 7200000 ms classifies as two_hours. -/
theorem C4_witness :
    resC4.category = categoryOf 7200000 ∧ categoryOf 7200000 = "two_hours" := by
  have h := C4_category_tiers slaNone jobC4 "a" 7200000 resC4 rfl rfl rfl
    analyseJob_jobC4
  exact ⟨h.1, h.2.2.1 (by norm_num) (by norm_num)⟩

/-- C5: in the status evaluator the four threshold rules run in order
(low CPU, low memory, high CPU, high memory); a firing rule overwrites
the status unconditionally, so the final status belongs to the last rule
that fires (normal when none fires), while the note belongs to the first
rule that fires and is written only when the notes are still empty, so a
pre-set custom-SLA note is always kept. -/
theorem C5_status_rules (ac am : Option ℚ) (n0 : String) :
    ((gtOpt am 16384 = true ∨ gtOpt ac 4 = true) →
      (evalStatus ac am n0).1 = "overutilised") ∧
    (gtOpt am 16384 = false → gtOpt ac 4 = false →
      (ltOpt am 256 = true ∨ ltOpt ac (1/10) = true) →
      (evalStatus ac am n0).1 = "underutilised") ∧
    (gtOpt am 16384 = false → gtOpt ac 4 = false → ltOpt am 256 = false →
      ltOpt ac (1/10) = false →
      (evalStatus ac am n0).1 = "normal" ∧ (evalStatus ac am n0).2 = n0) ∧
    (n0 ≠ "" → (evalStatus ac am n0).2 = n0) ∧
    (n0 = "" → ltOpt ac (1/10) = true →
      (evalStatus ac am n0).2 =
        "Low CPU usage; consider reducing executors or cores") ∧
    (n0 = "" → ltOpt ac (1/10) = false → ltOpt am 256 = true →
      (evalStatus ac am n0).2 =
        "Low memory usage; consider reducing executor memory") ∧
    (n0 = "" → ltOpt ac (1/10) = false → ltOpt am 256 = false →
      gtOpt ac 4 = true →
      (evalStatus ac am n0).2 =
        "High CPU usage; job may be starved or need more cores") ∧
    (n0 = "" → ltOpt ac (1/10) = false → ltOpt am 256 = false →
      gtOpt ac 4 = false → gtOpt am 16384 = true →
      (evalStatus ac am n0).2 =
        "High memory usage; job may require additional memory") := by
  by_cases hn : n0 = "" <;>
    cases h1 : ltOpt ac (1/10) <;> cases h2 : ltOpt am 256 <;>
    cases h3 : gtOpt ac 4 <;> cases h4 : gtOpt am 16384 <;>
    simp_all [evalStatus, applyRule]

/-- C5 witness: with avg_cpu = 0.05 and avg_memory = 20000 and no pre-set
note, the low-CPU rule fires first and keeps the explanation while the
high-memory rule fires last and sets the final status. -/
theorem C5_witness :
    (evalStatus (some (1/20)) (some 20000) "").1 = "overutilised" ∧
    (evalStatus (some (1/20)) (some 20000) "").2 =
      "Low CPU usage; consider reducing executors or cores" := by
  have h := C5_status_rules (some (1/20)) (some 20000) ""
  refine ⟨h.1 (Or.inl ?_), h.2.2.2.2.1 rfl ?_⟩
  · simp only [gtOpt, decide_eq_true_eq]
    norm_num
  · simp only [ltOpt, decide_eq_true_eq]
    norm_num

lemma build_prompt_ok (a : AnalysisResult) (c m : ℚ) (hc : a.avg_cpu = some c)
    (hm : a.avg_memory = some m) : ∃ p, build_prompt a = Except.ok p := by
  unfold build_prompt
  rw [hc, hm]
  exact ⟨_, rfl⟩

lemma parse_short (message : String) (a : AnalysisResult)
    (h : (findNumbers message).length < 3) :
    parse_recommendation message a = heuristic_recommendation a := by
  unfold parse_recommendation
  rcases hl : findNumbers message with _ | ⟨x, _ | ⟨y, _ | ⟨z, t⟩⟩⟩ <;>
    simp_all
  exact absurd h (by omega)

/-- C6: for each enumerated failure mode of the model-assisted path —
credential missing, openai library unavailable, an exception during the
call or while reading the response, or a reply with fewer than three
numeric tokens — recommend returns exactly the heuristic-path tuple for
the same AnalysisResult and propagates no error (the last two modes are
stated for analysis results whose two averages are present, since those
are the inputs on which the call is reached at all). -/
theorem C6_fallback_heuristic (cfg : Config) (env : ModelEnv)
    (a : AnalysisResult) :
    (cfg.openai_api_key = "" →
      recommend cfg env a = Except.ok (heuristic_recommendation a)) ∧
    (env.importOk = false →
      recommend cfg env a = Except.ok (heuristic_recommendation a)) ∧
    (∀ c m : ℚ, a.avg_cpu = some c → a.avg_memory = some m →
      env.callResult = Except.error () →
      recommend cfg env a = Except.ok (heuristic_recommendation a)) ∧
    (∀ (c m : ℚ) (msg : String), a.avg_cpu = some c → a.avg_memory = some m →
      env.callResult = Except.ok msg → (findNumbers msg).length < 3 →
      recommend cfg env a = Except.ok (heuristic_recommendation a)) := by
  refine ⟨?_, ?_, ?_, ?_⟩
  · intro hk
    simp [recommend, hk]
  · intro hi
    by_cases hk : cfg.openai_api_key = "" <;> simp [recommend, hk, hi]
  · intro c m hc hm hcall
    by_cases hk : cfg.openai_api_key = ""
    · simp [recommend, hk]
    · obtain ⟨p, hp⟩ := build_prompt_ok a c m hc hm
      cases hio : env.importOk <;> simp [recommend, hk, hio, hp, hcall]
  · intro c m msg hc hm hcall hlen
    by_cases hk : cfg.openai_api_key = ""
    · simp [recommend, hk]
    · obtain ⟨p, hp⟩ := build_prompt_ok a c m hc hm
      cases hio : env.importOk <;>
        simp [recommend, hk, hio, hp, hcall, parse_short msg a hlen]

/-- C6 witness: a reply with no numeric token at all falls back to the
heuristic tuple. -/
theorem C6_witness :
    recommend cfgKey ⟨true, Except.ok "no numeric tokens here"⟩ arBoth =
      Except.ok (heuristic_recommendation arBoth) := by
  have h := C6_fallback_heuristic cfgKey
    ⟨true, Except.ok "no numeric tokens here"⟩ arBoth
  exact h.2.2.2 2 600 "no numeric tokens here" rfl rfl rfl
    (by rw [show findNumbers "no numeric tokens here" = [] from rfl]; norm_num)

/-- C7: for every retained job the average CPU is the vcore-seconds
counter divided by elapsed seconds exactly when that counter is present
and is absent exactly when the counter is absent, and likewise the
average memory from the memory-seconds counter; a zero counter gives an
average of zero, never an absent value, and no clamping or rounding is
applied to either average. -/
theorem C7_averages (sla : String → Option SlaEntry) (job : JobRecord)
    (i : String) (e : ℚ) (r : AnalysisResult)
    (hid : job.id = some i) (he : job.elapsedTime = some e)
    (hr : analyseJob sla job = some r) :
    (∀ v, job.vcoreSeconds = some v → r.avg_cpu = some (v / (e / 1000))) ∧
    (job.vcoreSeconds = none → r.avg_cpu = none) ∧
    (job.vcoreSeconds = some 0 → r.avg_cpu = some 0) ∧
    (∀ v, job.memorySeconds = some v → r.avg_memory = some (v / (e / 1000))) ∧
    (job.memorySeconds = none → r.avg_memory = none) ∧
    (job.memorySeconds = some 0 → r.avg_memory = some 0) := by
  rcases job with ⟨cn, jid, jn, jel, jmem, jvc⟩
  simp only at hid he
  subst hid he
  simp only [analyseJob] at hr
  split at hr
  · exact absurd hr (by simp)
  · have hr2 := Option.some_inj.mp hr
    subst hr2
    refine ⟨?_, ?_, ?_, ?_, ?_, ?_⟩
    · intro v hv
      simp only at hv
      subst hv
      simp
    · intro hv
      simp only at hv
      subst hv
      simp
    · intro hv
      simp only at hv
      subst hv
      simp
    · intro v hv
      simp only at hv
      subst hv
      simp
    · intro hv
      simp only at hv
      subst hv
      simp
    · intro hv
      simp only at hv
      subst hv
      simp

/-- A job with a zero vcore-seconds counter and a present memory counter. -/
def jobC7 : JobRecord := ⟨"c", some "a", none, some 2000, some 500, some 0⟩

/-- The analysis result computed for jobC7. -/
def resC7 : AnalysisResult :=
  ⟨"c", "a", "hourly", some 0, some 250, "underutilised",
   "Low CPU usage; consider reducing executors or cores"⟩

lemma categoryOf_hourly (e : ℚ) (h : e ≤ 3600000) : categoryOf e = "hourly" := by
  have hH : HOURLY_THRESHOLD_MS = 3600000 := by norm_num [HOURLY_THRESHOLD_MS]
  unfold categoryOf
  rw [hH, if_pos h]

lemma analyseJob_jobC7 : analyseJob slaNone jobC7 = some resC7 := by
  have hc : categoryOf 2000 = "hourly" := categoryOf_hourly 2000 (by norm_num)
  have hcpu : (0 : ℚ) / (2000 / 1000) = 0 := by norm_num
  have hmem : (500 : ℚ) / (2000 / 1000) = 250 := by norm_num
  have hlt1 : ltOpt (some (0 : ℚ)) (1/10) = true := by
    simp only [ltOpt, decide_eq_true_eq]
    norm_num
  have hlt2 : ltOpt (some (250 : ℚ)) 256 = true := by
    simp only [ltOpt, decide_eq_true_eq]
    norm_num
  have hgt1 : gtOpt (some (0 : ℚ)) 4 = false := by
    simp only [gtOpt, decide_eq_false_iff_not]
    norm_num
  have hgt2 : gtOpt (some (250 : ℚ)) 16384 = false := by
    simp only [gtOpt, decide_eq_false_iff_not]
    norm_num
  simp only [analyseJob, jobC7, slaNone, lookupCustom]
  rw [if_neg (by push_neg; exact ⟨by decide, by norm_num⟩)]
  simp only [Option.map, evalStatus, applyRule, hlt1, hlt2, hgt1, hgt2, hc,
    hcpu, hmem]
  rfl

/-- C7 witness: for jobC7 the zero cpu counter yields average 0 (not
absent) and the memory counter 500 over 2 seconds yields average 250. -/
theorem C7_witness :
    resC7.avg_cpu = some 0 ∧ resC7.avg_memory = some ((500 : ℚ) / (2000 / 1000)) := by
  have h := C7_averages slaNone jobC7 "a" 2000 resC7 rfl rfl analyseJob_jobC7
  exact ⟨h.2.2.1 rfl, h.2.2.2.1 500 rfl⟩

/-- C8: when a job has a custom-SLA entry under its id and another under
its name, the lookup selects the id entry, and the category that entry
declares is returned verbatim, overriding the duration thresholds. -/
theorem C8_id_precedence (sla : String → Option SlaEntry) (i n : String)
    (ei en : SlaEntry) (hei : sla i = some ei) (hen : sla n = some en) :
    lookupCustom sla i (some n) = some ei ∧
    (∀ cstr : String, ei.category = some cstr →
      ∀ (job : JobRecord) (r : AnalysisResult), job.id = some i →
        job.name = some n → analyseJob sla job = some r →
        r.category = cstr) := by
  have hlk : lookupCustom sla i (some n) = some ei := by
    unfold lookupCustom
    rw [hei]
  refine ⟨hlk, ?_⟩
  intro cstr hcat job r hid hname hr
  rcases job with ⟨cn, jid, jn, jel, jmem, jvc⟩
  simp only at hid hname
  subst hid hname
  cases jel with
  | none => simp [analyseJob] at hr
  | some e =>
    simp only [analyseJob] at hr
    split at hr
    · exact absurd hr (by simp)
    · rw [hlk] at hr
      have htr : entryTruthy ei = true := by
        unfold entryTruthy
        rw [hcat]
        simp
      simp only [htr, if_true, hcat, Option.getD] at hr
      rw [← Option.some_inj.mp hr]

/-- A custom SLA table with one entry under the id and one under the name. -/
def slaC8 : String → Option SlaEntry := fun s =>
  if s = "idA" then some ⟨some "gold", none, []⟩
  else if s = "nameA" then some ⟨some "silver", none, []⟩
  else none

/-- A job that matches both entries of slaC8. -/
def jobC8 : JobRecord := ⟨"c", some "idA", some "nameA", some 50000000, none, none⟩

/-- The analysis result computed for jobC8. -/
def resC8 : AnalysisResult :=
  ⟨"c", "idA", "gold", none, none, "normal",
   "Custom SLA applied (category=gold)"⟩

lemma analyseJob_jobC8 : analyseJob slaC8 jobC8 = some resC8 := by
  simp only [analyseJob, jobC8, slaC8, lookupCustom]
  rw [if_neg (by push_neg; exact ⟨by decide, by norm_num⟩)]
  rfl

/-- C8 witness: with a gold entry under the id and a silver entry under
the name, the job gets category gold. -/
theorem C8_witness :
    lookupCustom slaC8 "idA" (some "nameA") = some ⟨some "gold", none, []⟩ ∧
    resC8.category = "gold" := by
  have h := C8_id_precedence slaC8 "idA" "nameA" ⟨some "gold", none, []⟩
    ⟨some "silver", none, []⟩ rfl rfl
  exact ⟨h.1, h.2 "gold" rfl jobC8 resC8 rfl rfl analyseJob_jobC8⟩

/-- A record whose id is present but is the empty string. -/
def jobEmptyId : JobRecord := ⟨"c", some "", none, some 1, none, none⟩

/-- C9 counterexample: a record carrying the identifier "" (present, not
missing) and the positive elapsed duration 1 ms is skipped — analyse_jobs
emits nothing for it — although the claim requires exactly one
AnalysisResult for every record with an identifier and positive elapsed
duration. -/
theorem C9_counterexample :
    jobEmptyId.id = some "" ∧ jobEmptyId.elapsedTime = some 1 ∧ (0 : ℚ) < 1 ∧
    analyse_jobs slaNone [jobEmptyId] = [] := by
  refine ⟨rfl, rfl, by norm_num, rfl⟩

lemma analyseJob_eq_none (sla : String → Option SlaEntry) (j : JobRecord)
    (h : retainedB j = false) : analyseJob sla j = none := by
  rcases j with ⟨cn, jid, jn, jel, jmem, jvc⟩
  cases jid with
  | none => rfl
  | some i =>
    cases jel with
    | none => rfl
    | some e =>
      by_cases hi : i = ""
      · simp [analyseJob, hi]
      · have he : e ≤ 0 := by
          simp only [retainedB, hi, decide_False, Bool.not_false, Bool.true_and,
            decide_eq_false_iff_not, not_lt] at h
          exact h
        simp [analyseJob, he]

lemma analyseJob_isSome (sla : String → Option SlaEntry) (j : JobRecord)
    (h : retainedB j = true) : (analyseJob sla j).isSome = true := by
  rcases j with ⟨cn, jid, jn, jel, jmem, jvc⟩
  cases jid with
  | none => simp [retainedB] at h
  | some i =>
    cases jel with
    | none => simp [retainedB] at h
    | some e =>
      simp only [retainedB, Bool.and_eq_true, Bool.not_eq_eq_eq_not,
        Bool.not_true, decide_eq_false_iff_not, decide_eq_true_eq] at h
      simp only [analyseJob]
      rw [if_neg ?hc]
      case hc =>
        push_neg
        refine ⟨?_, ?_⟩
        · simpa using h.1
        · simpa [not_le] using h.2
      rfl

/-- C9 (amended): analyse_jobs emits exactly one AnalysisResult, in input
order, for every record whose identifier is present and non-empty and
whose elapsed duration is present and positive, and silently emits
nothing — raising nothing — for every other record; the amendment is that
a record whose identifier is the empty string counts as skipped, not as
having an identifier. -/
theorem C9_emission (sla : String → Option SlaEntry) (jobs : List JobRecord) :
    (analyse_jobs sla jobs).length =
      (jobs.filter (fun j => retainedB j)).length ∧
    analyse_jobs sla jobs =
      (jobs.filter (fun j => retainedB j)).filterMap (analyseJob sla) ∧
    (∀ j, retainedB j = false → analyseJob sla j = none) ∧
    (∀ j, retainedB j = true → (analyseJob sla j).isSome = true) := by
  refine ⟨?_, ?_, fun j h => analyseJob_eq_none sla j h,
    fun j h => analyseJob_isSome sla j h⟩
  · induction jobs with
    | nil => rfl
    | cons j t ih =>
      cases hj : retainedB j with
      | false =>
        simpa [analyse_jobs, List.filterMap_cons, List.filter_cons, hj,
          analyseJob_eq_none sla j hj] using ih
      | true =>
        obtain ⟨r, hrr⟩ := Option.isSome_iff_exists.mp (analyseJob_isSome sla j hj)
        simpa [analyse_jobs, List.filterMap_cons, List.filter_cons, hj, hrr]
          using ih
  · induction jobs with
    | nil => rfl
    | cons j t ih =>
      cases hj : retainedB j with
      | false =>
        simpa [analyse_jobs, List.filterMap_cons, List.filter_cons, hj,
          analyseJob_eq_none sla j hj] using ih
      | true =>
        obtain ⟨r, hrr⟩ := Option.isSome_iff_exists.mp (analyseJob_isSome sla j hj)
        simpa [analyse_jobs, List.filterMap_cons, List.filter_cons, hj, hrr]
          using ih

/-- A well-formed record. -/
def jobGood : JobRecord := ⟨"c", some "a", none, some 1000, none, none⟩

/-- A record with no elapsed time. -/
def jobNoElapsed : JobRecord := ⟨"c", some "b", none, none, none, none⟩

/-- C9 witness: a two-record input where the second record lacks an
elapsed duration produces exactly the results of the retained sublist,
and the unretained record maps to nothing. -/
theorem C9_witness :
    analyse_jobs slaNone [jobGood, jobNoElapsed] =
      (([jobGood, jobNoElapsed].filter (fun j => retainedB j)).filterMap
        (analyseJob slaNone)) ∧
    analyseJob slaNone jobNoElapsed = none := by
  have h := C9_emission slaNone [jobGood, jobNoElapsed]
  exact ⟨h.2.1, h.2.2.1 jobNoElapsed rfl⟩

/-- A custom SLA entry that is an empty mapping: no category key, no
threshold_ms key, no other keys. -/
def entryEmptyC10 : SlaEntry := ⟨none, none, []⟩

/-- A custom SLA table mapping job-1 to the empty entry. -/
def slaC10 : String → Option SlaEntry := fun s =>
  if s = "job-1" then some entryEmptyC10 else none

/-- A job matching the empty custom SLA entry. -/
def jobC10 : JobRecord := ⟨"c", some "job-1", none, some 1000, none, none⟩

/-- The analysis result computed for jobC10. -/
def resC10 : AnalysisResult := ⟨"c", "job-1", "hourly", none, none, "normal", ""⟩

lemma analyseJob_jobC10 : analyseJob slaC10 jobC10 = some resC10 := by
  have hc : categoryOf 1000 = "hourly" := categoryOf_hourly 1000 (by norm_num)
  simp only [analyseJob, jobC10, slaC10, lookupCustom]
  rw [if_neg (by push_neg; exact ⟨by decide, by norm_num⟩)]
  simp only [hc]
  rfl

/-- C10 counterexample: job-1 matches the custom-SLA entry that is an
empty mapping — an entry with no category key — yet its category is the
threshold-computed "hourly" with empty notes, not the literal "custom"
with the custom-SLA note, because the empty dict is falsy. -/
theorem C10_counterexample :
    slaC10 "job-1" = some entryEmptyC10 ∧ entryEmptyC10.category = none ∧
    analyseJob slaC10 jobC10 = some resC10 ∧ resC10.category = "hourly" ∧
    resC10.category ≠ "custom" ∧
    resC10.notes ≠ "Custom SLA applied (category=custom)" :=
  ⟨rfl, rfl, analyseJob_jobC10, rfl, by decide, by decide⟩

/-- C10 (amended): if a job matches a non-empty custom-SLA entry whose
mapping lacks a category key, the classifier assigns the literal category
"custom" with notes "Custom SLA applied (category=custom)", and a
threshold_ms key in the entry is never consulted for the category — any
other truthy entry with the same (absent) category field yields "custom"
as well; a job whose matching entry is an empty mapping falls back to the
duration thresholds instead. -/
theorem C10_no_category_key (sla : String → Option SlaEntry) (job : JobRecord)
    (i : String) (entry : SlaEntry) (r : AnalysisResult)
    (hid : job.id = some i)
    (hlk : lookupCustom sla i job.name = some entry)
    (hcat : entry.category = none) (htr : entryTruthy entry = true)
    (hr : analyseJob sla job = some r) :
    r.category = "custom" ∧
    r.notes = "Custom SLA applied (category=custom)" ∧
    (∀ (t : Option ℚ) (ex : List String) (r2 : AnalysisResult),
      entryTruthy ⟨none, t, ex⟩ = true →
      analyseJob (fun s => if s = i then some ⟨none, t, ex⟩ else sla s) job =
        some r2 →
      r2.category = "custom") := by
  rcases job with ⟨cn, jid, jn, jel, jmem, jvc⟩
  simp only at hid hlk
  subst hid
  have hmain : ∀ (sla2 : String → Option SlaEntry) (e2 : SlaEntry)
      (r3 : AnalysisResult), lookupCustom sla2 i jn = some e2 →
      e2.category = none → entryTruthy e2 = true →
      analyseJob sla2 ⟨cn, some i, jn, jel, jmem, jvc⟩ = some r3 →
      r3.category = "custom" ∧
      r3.notes = "Custom SLA applied (category=custom)" := by
    intro sla2 e2 r3 hlk2 hcat2 htr2 hr3
    cases jel with
    | none => simp [analyseJob] at hr3
    | some e =>
      simp only [analyseJob] at hr3
      split at hr3
      · exact absurd hr3 (by simp)
      · rw [hlk2] at hr3
        simp only [htr2, if_true, hcat2, Option.getD] at hr3
        rw [← Option.some_inj.mp hr3]
        constructor
        · rfl
        · exact evalStatus_notes_ne _ _ _ (by decide)
  have h1 := hmain sla entry r hlk hcat htr hr
  refine ⟨h1.1, h1.2, ?_⟩
  intro t ex r2 htr2 hr2
  have hlk2 : lookupCustom (fun s => if s = i then some ⟨none, t, ex⟩ else sla s)
      i jn = some ⟨none, t, ex⟩ := by
    unfold lookupCustom
    simp
  exact (hmain _ _ _ hlk2 rfl htr2 hr2).1

/-- A custom SLA table whose entry for job-2 has only a threshold_ms key. -/
def slaC10w : String → Option SlaEntry := fun s =>
  if s = "job-2" then some ⟨none, some 5000, []⟩ else none

/-- A job matching the threshold-only custom SLA entry. -/
def jobC10w : JobRecord := ⟨"c", some "job-2", none, some 1000, none, none⟩

/-- The analysis result computed for jobC10w. -/
def resC10w : AnalysisResult :=
  ⟨"c", "job-2", "custom", none, none, "normal",
   "Custom SLA applied (category=custom)"⟩

lemma analyseJob_jobC10w : analyseJob slaC10w jobC10w = some resC10w := by
  simp only [analyseJob, jobC10w, slaC10w, lookupCustom]
  rw [if_neg (by push_neg; exact ⟨by decide, by norm_num⟩)]
  rfl

/-- C10 witness: a non-empty entry holding only threshold_ms yields the
literal category "custom" and the custom-SLA note. -/
theorem C10_witness :
    resC10w.category = "custom" ∧
    resC10w.notes = "Custom SLA applied (category=custom)" := by
  have h := C10_no_category_key slaC10w jobC10w "job-2" ⟨none, some 5000, []⟩
    resC10w rfl rfl rfl rfl analyseJob_jobC10w
  exact ⟨h.1, h.2.1⟩

end BigAgent
